import Mathlib

/-!
Verification development for the Atelier discovery pipeline.

This file gives a shallow embedding of the core of the pipeline:

* the normalized listing record (`src/scrapers/base.py`, `ScrapedListing`);
* the confidence scorer (`src/filters/confidence.py`, `ConfidenceScorer`)
  including an executable matcher for exactly the regular-expression
  constructs the shipped patterns use (literals, the whitespace star
  construct, alternation, an optional single character, and word
  boundaries), evaluated over the case-folded concatenation of title and
  description as in the source;
* the two `search_all` implementations (`src/scrapers/ebay.py`,
  `src/scrapers/ebay_api.py`), with Python dict semantics rendered as
  insertion-ordered association lists;
* the orchestrator (`src/scrapers/orchestrator.py`): `run_all` with its
  per-scraper exception handler and unconditional `close()`, cross-scraper
  URL deduplication, and `get_listing_details`.

Python floats in the scorer only ever take values in halves, so scores and
weights are embedded as rationals.  Scraper I/O is embedded by giving each
scraper stand-in the outcome of its calls: `search_all` either returns a
listing list or raises (an `Except` value), mirroring that the orchestrator
only observes one of those two outcomes per scraper.
-/

/-- Marketplace identifiers, from `SourcePlatform` in `src/database/models.py`. -/
inductive SourcePlatform where
  | EBAY
  | ETSY
  | LIVEAUCTIONEERS
  | INVALUABLE
  | AUCTIONZIP
  | FIRSTDIBS
  | ARTNET
  | FACEBOOK
  | CRAIGSLIST
  | ESTATESALES_NET
  | ESTATESALES_ORG
deriving DecidableEq, Repr, BEq

/-- The normalized listing record from `src/scrapers/base.py`.  The two
timestamp fields and the opaque `raw_data` payload are omitted: they are
never read by the scorer or the orchestrator. -/
structure ScrapedListing where
  title : String
  description : String
  source_platform : SourcePlatform
  source_url : String
  source_id : Option String := none
  price : Option ℚ := none
  currency : String := "USD"
  seller_name : Option String := none
  seller_id : Option String := none
  location : Option String := none
  image_urls : List String := []
deriving DecidableEq, Repr

/-- Python regex whitespace class over the ASCII range. -/
def isPySpace (c : Char) : Bool :=
  c == ' ' || c == '\t' || c == '\n' || c == '\r' || c == Char.ofNat 11 || c == Char.ofNat 12

/-- Python regex word characters over the ASCII range. -/
def isWordChar (c : Char) : Bool :=
  c.isAlphanum || c == '_'

/-- The regular-expression constructs used by the shipped patterns:
literal characters, the whitespace star, alternation, an optional
sub-expression, sequencing, and word boundaries. -/
inductive RE where
  | eps
  | chr (c : Char)
  | wsStar
  | opt (r : RE)
  | alt (a b : RE)
  | seq (a b : RE)
  | wordB
deriving Repr

/-- Word-boundary test at a position given the previous character (`none`
at the start of the text) and the remaining text. -/
def atBoundary (p : Option Char) (s : List Char) : Bool :=
  let pw := match p with
    | none => false
    | some c => isWordChar c
  let nw := match s with
    | [] => false
    | c :: _ => isWordChar c
  pw != nw

/-- All positions reachable by consuming zero or more whitespace
characters, each recorded as previous-character plus remaining text. -/
def wsSuffixes : Option Char → List Char → List (Option Char × List Char)
  | p, [] => [(p, [])]
  | p, c :: t => (p, c :: t) :: (if isPySpace c then wsSuffixes (some c) t else [])

/-- All positions reachable by matching `r` starting at the position given
by previous character `p` and remaining text `s`. -/
def mtch : RE → Option Char → List Char → List (Option Char × List Char)
  | RE.eps, p, s => [(p, s)]
  | RE.chr c, _, s =>
    match s with
    | [] => []
    | d :: t => if c == d then [(some d, t)] else []
  | RE.wsStar, p, s => wsSuffixes p s
  | RE.opt r, p, s => (p, s) :: mtch r p s
  | RE.alt a b, p, s => mtch a p s ++ mtch b p s
  | RE.seq a b, p, s => (mtch a p s).flatMap fun q => mtch b q.1 q.2
  | RE.wordB, p, s => if atBoundary p s then [(p, s)] else []

/-- Does `r` match starting exactly at this position? -/
def matchHere (r : RE) (p : Option Char) (s : List Char) : Bool :=
  !(mtch r p s).isEmpty

/-- Search for a match of `r` at this position or any later one. -/
def searchFrom (r : RE) : Option Char → List Char → Bool
  | p, [] => matchHere r p []
  | p, c :: t => matchHere r p (c :: t) || searchFrom r (some c) t

/-- Embedding of `re.search(pattern, text)`: does `r` match anywhere in
the text? -/
def reSearch (r : RE) (s : List Char) : Bool :=
  searchFrom r none s

/-- Sequence of literal characters. -/
def rlit (s : String) : RE :=
  s.toList.foldr (fun c r => RE.seq (RE.chr c) r) RE.eps

/-- Sequence a list of sub-expressions. -/
def seqList (l : List RE) : RE :=
  l.foldr RE.seq RE.eps

/-- The ASCII apostrophe, the only member of the single character
class appearing in the source patterns. -/
def apos : Char := Char.ofNat 39

/-- `REJECT_PATTERNS` from `src/filters/confidence.py`, in source order,
each paired with the source text of the pattern (used in rejection reasons and
signal keys). -/
def REJECT_PATTERNS : List (String × RE) := [
  ("da\\s*vinci\\s*code", seqList [rlit "da", RE.wsStar, rlit "vinci", RE.wsStar, rlit "code"]),
  ("robert\\s*langdon", seqList [rlit "robert", RE.wsStar, rlit "langdon"]),
  ("angels\\s*(&|and)\\s*demons",
    seqList [rlit "angels", RE.wsStar, RE.alt (rlit "&") (rlit "and"), RE.wsStar, rlit "demons"]),
  ("inferno", rlit "inferno"),
  ("digital\\s*fortress", seqList [rlit "digital", RE.wsStar, rlit "fortress"]),
  ("deception\\s*point", seqList [rlit "deception", RE.wsStar, rlit "point"]),
  ("origin\\s*novel", seqList [rlit "origin", RE.wsStar, rlit "novel"]),
  ("the\\s*lost\\s*symbol", seqList [rlit "the", RE.wsStar, rlit "lost", RE.wsStar, rlit "symbol"]),
  ("\\bauthor\\b", seqList [RE.wordB, rlit "author", RE.wordB]),
  ("\\bnovelist\\b", seqList [RE.wordB, rlit "novelist", RE.wordB]),
  ("\\bthriller\\b", seqList [RE.wordB, rlit "thriller", RE.wordB]),
  ("\\bbestseller\\b", seqList [RE.wordB, rlit "bestseller", RE.wordB]),
  ("\\bbestselling\\b", seqList [RE.wordB, rlit "bestselling", RE.wordB]),
  ("new\\s*york\\s*times\\s*bestseller",
    seqList [rlit "new", RE.wsStar, rlit "york", RE.wsStar, rlit "times", RE.wsStar, rlit "bestseller"])]

/-- `STRONG_POSITIVE` from `src/filters/confidence.py`, in source order:
pattern source text, compiled pattern, and weight. -/
def STRONG_POSITIVE : List (String × RE × ℚ) := [
  ("trompe\\s*l[\x27\x27]?oeil",
    seqList [rlit "trompe", RE.wsStar, rlit "l", RE.opt (RE.chr apos), rlit "oeil"], 3),
  ("paier\\s*college", seqList [rlit "paier", RE.wsStar, rlit "college"], 3),
  ("ken\\s*davies", seqList [rlit "ken", RE.wsStar, rlit "davies"], 5/2),
  ("peter\\s*poskas", seqList [rlit "peter", RE.wsStar, rlit "poskas"], 5/2),
  ("susan\\s*powell\\s*fine\\s*art",
    seqList [rlit "susan", RE.wsStar, rlit "powell", RE.wsStar, rlit "fine", RE.wsStar, rlit "art"], 3),
  ("david\\s*findlay\\s*galler",
    seqList [rlit "david", RE.wsStar, rlit "findlay", RE.wsStar, rlit "galler"], 5/2),
  ("greenwich\\s*workshop\\s*galler",
    seqList [rlit "greenwich", RE.wsStar, rlit "workshop", RE.wsStar, rlit "galler"], 5/2),
  ("robert\\s*wilson\\s*galler",
    seqList [rlit "robert", RE.wsStar, rlit "wilson", RE.wsStar, rlit "galler"], 2),
  ("rack\\s*painting", seqList [rlit "rack", RE.wsStar, rlit "painting"], 5/2)]

/-- `MEDIUM_POSITIVE` from `src/filters/confidence.py`, in source order. -/
def MEDIUM_POSITIVE : List (String × RE × ℚ) := [
  ("madison\\s*,?\\s*(ct|connecticut)",
    seqList [rlit "madison", RE.wsStar, RE.opt (RE.chr ','), RE.wsStar,
      RE.alt (rlit "ct") (rlit "connecticut")], 3/2),
  ("hamden\\s*,?\\s*(ct|connecticut)",
    seqList [rlit "hamden", RE.wsStar, RE.opt (RE.chr ','), RE.wsStar,
      RE.alt (rlit "ct") (rlit "connecticut")], 3/2),
  ("nantucket", rlit "nantucket", 3/2),
  ("cape\\s*cod", seqList [rlit "cape", RE.wsStar, rlit "cod"], 1),
  ("vintage\\s*postcards?",
    seqList [rlit "vintage", RE.wsStar, rlit "postcard", RE.opt (RE.chr 's')], 3/2),
  ("currency\\s*painting", seqList [rlit "currency", RE.wsStar, rlit "painting"], 3/2),
  ("paper\\s*currency", seqList [rlit "paper", RE.wsStar, rlit "currency"], 1),
  ("hyperrealistic", rlit "hyperrealistic", 1),
  ("realist\\s*paint", seqList [rlit "realist", RE.wsStar, rlit "paint"], 1),
  ("still\\s*life", seqList [rlit "still", RE.wsStar, rlit "life"], 1/2),
  ("connecticut\\s*artist", seqList [rlit "connecticut", RE.wsStar, rlit "artist"], 3/2),
  ("1949\\s*-?\\s*2022",
    seqList [rlit "1949", RE.wsStar, RE.opt (RE.chr '-'), RE.wsStar, rlit "2022"], 2)]

/-- `WEAK_POSITIVE` from `src/filters/confidence.py`, in source order. -/
def WEAK_POSITIVE : List (String × RE × ℚ) := [
  ("harlequin\\s*books?",
    seqList [rlit "harlequin", RE.wsStar, rlit "book", RE.opt (RE.chr 's')], 1/2),
  ("rolling\\s*stone", seqList [rlit "rolling", RE.wsStar, rlit "stone"], 1/2),
  ("smithsonian", rlit "smithsonian", 1/2),
  ("national\\s*geographic", seqList [rlit "national", RE.wsStar, rlit "geographic"], 1/2),
  ("book\\s*cover\\s*illustrat",
    seqList [rlit "book", RE.wsStar, rlit "cover", RE.wsStar, rlit "illustrat"], 1/2),
  ("commercial\\s*illustrat", seqList [rlit "commercial", RE.wsStar, rlit "illustrat"], 1/2),
  ("syracuse\\s*,?\\s*(ny|new\\s*york)",
    seqList [rlit "syracuse", RE.wsStar, RE.opt (RE.chr ','), RE.wsStar,
      RE.alt (rlit "ny") (seqList [rlit "new", RE.wsStar, rlit "york"])], 1/2)]

/-- The three positive tiers in the order the scorer walks them. -/
def positivePatterns : List (String × RE × ℚ) :=
  STRONG_POSITIVE ++ MEDIUM_POSITIVE ++ WEAK_POSITIVE

/-- `FilterResult` from `src/filters/confidence.py`.  The two signal dicts
are insertion-ordered association lists, as Python dicts are. -/
structure FilterResult where
  listing : ScrapedListing
  confidence_score : ℚ
  positive_signals : List (String × ℚ) := []
  negative_signals : List (String × ℚ) := []
  is_rejected : Bool := false
  rejection_reason : Option String := none
deriving DecidableEq, Repr

/-- The scorer configuration, from `ConfidenceScorer.__init__`. -/
structure ConfidenceScorer where
  rejection_threshold : ℚ := -1
  acceptance_threshold : ℚ := 1

/-- A `ConfidenceScorer()` built with the default thresholds. -/
def defaultScorer : ConfidenceScorer := {}

/-- The text the scorer matches against: title and description joined by a
space and case-folded, from the first line of `ConfidenceScorer.score`. -/
def listingText (l : ScrapedListing) : List Char :=
  (l.title ++ " " ++ l.description).toList.map Char.toLower

/-- The positive signals matched in a text, in tier-then-source order,
with their weights: the three positive loops of `ConfidenceScorer.score`. -/
def matchedPositives (text : List Char) : List (String × ℚ) :=
  (positivePatterns.filter fun p => reSearch p.2.1 text).map fun p => (p.1, p.2.2)

/-- The running `+=` accumulation of signal weights in
`ConfidenceScorer.score`. -/
def sumWeights (sig : List (String × ℚ)) : ℚ :=
  sig.foldl (fun a p => a + p.2) 0

/-- `ConfidenceScorer.score`: first matching reject pattern short-circuits
with the fixed sentinel; otherwise positive weights are summed and the
strict threshold check runs. -/
def ConfidenceScorer.score (cfg : ConfidenceScorer) (listing : ScrapedListing) : FilterResult :=
  let text := listingText listing
  match REJECT_PATTERNS.find? fun p => reSearch p.2 text with
  | some p =>
    { listing := listing
      confidence_score := -10
      positive_signals := []
      negative_signals := [(p.1, -10)]
      is_rejected := true
      rejection_reason := some ("Matched rejection pattern: " ++ p.1) }
  | none =>
    let pos := matchedPositives text
    let sc := sumWeights pos
    if sc < cfg.rejection_threshold then
      { listing := listing
        confidence_score := sc
        positive_signals := pos
        negative_signals := []
        is_rejected := true
        rejection_reason := some ("Score " ++ toString sc ++ " below threshold "
          ++ toString cfg.rejection_threshold) }
    else
      { listing := listing
        confidence_score := sc
        positive_signals := pos
        negative_signals := []
        is_rejected := false
        rejection_reason := none }

/-- The descending-score comparison handed to the sort in
`ConfidenceScorer.filter_listings`. -/
def scoreLE (a b : FilterResult) : Bool :=
  decide (b.confidence_score ≤ a.confidence_score)

/-- `ConfidenceScorer.filter_listings`: score all listings, drop rejected
results, stable-sort the rest by descending confidence score (the Python list sort is stable; `mergeSort` is the stable sort here). -/
def ConfidenceScorer.filter_listings (cfg : ConfidenceScorer)
    (listings : List ScrapedListing) : List FilterResult :=
  let results := listings.map cfg.score
  let accepted := results.filter fun r => !r.is_rejected
  accepted.mergeSort scoreLE

/-- First-seen-wins insertion into a URL-keyed, insertion-ordered dict:
the `if listing.source_url not in all_listings` guard used by both
`EbayScraper.search_all` and `ScraperOrchestrator.run_all`. -/
def dedupInsert (acc : List (String × ScrapedListing)) (l : ScrapedListing) :
    List (String × ScrapedListing) :=
  if acc.any fun p => p.1 == l.source_url then acc else acc ++ [(l.source_url, l)]

/-- Fold a batch of listings into the URL-keyed dict. -/
def dedupFold (acc : List (String × ScrapedListing)) (ls : List ScrapedListing) :
    List (String × ScrapedListing) :=
  ls.foldl dedupInsert acc

/-- `list(all_listings.values())` after URL-keyed first-seen-wins
deduplication of a listing stream. -/
def dedupByUrl (ls : List ScrapedListing) : List ScrapedListing :=
  (dedupFold [] ls).map Prod.snd

/-- `EbayScraper.build_search_queries` from `src/scrapers/ebay.py`. -/
def ebayBuildSearchQueries : List String := [
  "\x22Dan Brown\x22 trompe l\x27oeil",
  "\x22Dan Brown\x22 artist painting",
  "\x22Dan Brown\x22 Connecticut artist",
  "\x22Dan Brown\x22 \x22Susan Powell\x22",
  "\x22Daniel Brown\x22 trompe l\x27oeil",
  "\x22Dan Brown\x22 original painting -novel -book -author",
  "\x22Dan Brown\x22 vintage postcards painting",
  "\x22Dan Brown\x22 rack painting",
  "\x22Dan Brown\x22 realist painting"]

/-- `EbayApiScraper.build_search_queries` from `src/scrapers/ebay_api.py`. -/
def ebayApiBuildSearchQueries : List String := [
  "Dan Brown trompe l\x27oeil",
  "Dan Brown artist painting",
  "Dan Brown Connecticut artist",
  "Dan Brown Susan Powell",
  "Daniel Brown trompe l\x27oeil",
  "Dan Brown rack painting",
  "Dan Brown vintage postcards painting",
  "Dan Brown realist painting",
  "Dan Brown original oil painting"]

/-- `EbayScraper.search_all` from `src/scrapers/ebay.py`, parameterized by
the outcome of `search` per query: runs the queries in order, folding each
result batch into the URL-keyed dict, and returns the dict values. -/
def ebaySearchAll (search : String → List ScrapedListing) : List ScrapedListing :=
  (ebayBuildSearchQueries.foldl (fun acc q => dedupFold acc (search q)) []).map Prod.snd

/-- Python dict assignment `d[k] = v` on an insertion-ordered association
list: overwrite in place when the key exists, append otherwise. -/
def dictInsert (acc : List (String × ScrapedListing)) (k : String) (v : ScrapedListing) :
    List (String × ScrapedListing) :=
  if acc.any fun p => p.1 == k then acc.map fun p => if p.1 == k then (k, v) else p
  else acc ++ [(k, v)]

/-- One step of the dedup loop in `EbayApiScraper.search_all`: store under the
item id when it is truthy and not already a key, otherwise store under the
URL when no stored listing shares it. -/
def apiInsert (acc : List (String × ScrapedListing)) (l : ScrapedListing) :
    List (String × ScrapedListing) :=
  match l.source_id with
  | some i =>
    if !(i == "") && !(acc.any fun p => p.1 == i) then acc ++ [(i, l)]
    else if !(acc.any fun p => p.2.source_url == l.source_url) then dictInsert acc l.source_url l
    else acc
  | none =>
    if !(acc.any fun p => p.2.source_url == l.source_url) then dictInsert acc l.source_url l
    else acc

/-- `EbayApiScraper.search_all` from `src/scrapers/ebay_api.py`,
parameterized by the outcome of `search` per query. -/
def ebayApiSearchAll (search : String → List ScrapedListing) : List ScrapedListing :=
  (ebayApiBuildSearchQueries.foldl (fun acc q => (search q).foldl apiInsert acc) []).map Prod.snd

/-- The dedup key described by the words of the spec for `search_all`:
`source_id` when present, else `source_url`. -/
def specDedupKey (l : ScrapedListing) : String :=
  match l.source_id with
  | some i => i
  | none => l.source_url

/-- `search_all` as the words of the spec describe it (for comparison with the
embedded implementations): queries merged in order, deduplicating by
`source_id` when present, else by `source_url`, first seen wins. -/
def specSearchAll (search : String → List ScrapedListing) (queries : List String) :
    List ScrapedListing :=
  (((queries.map search).flatten).foldl
    (fun acc l =>
      if acc.any fun p => p.1 == specDedupKey l then acc else acc ++ [(specDedupKey l, l)])
    []).map Prod.snd

/-- A scraper as the orchestrator observes it: its platform tag, the
outcome of one `search_all()` call (a listing list, or the exception it
raised), and the outcome of `get_listing_details(url)` per URL. -/
structure MScraper where
  platform : SourcePlatform
  search_all : Except String (List ScrapedListing)
  details : String → Except String (Option ScrapedListing)

/-- The listings a scraper contributes to a run: its results when
`search_all()` returned, nothing when it raised. -/
def okListings (s : MScraper) : List ScrapedListing :=
  match s.search_all with
  | Except.ok ls => ls
  | Except.error _ => []

/-- The listing stream `run_all` feeds its dedup dict, in configured
scraper order. -/
def collected (scrapers : List MScraper) : List ScrapedListing :=
  (scrapers.map okListings).flatten

/-- The per-scraper loop of `ScraperOrchestrator.run_all`: the `search_all`
outcome of each scraper is folded into the URL-keyed dict when it returned
and swallowed (logged only) when it raised, and `close()` runs in the
`finally` block either way.  Returns the final dict and the list of
scrapers closed, in order. -/
def runAllAux : List MScraper → List (String × ScrapedListing) →
    List (String × ScrapedListing) × List MScraper
  | [], acc => (acc, [])
  | s :: rest, acc =>
    let acc2 := match s.search_all with
      | Except.ok ls => dedupFold acc ls
      | Except.error _ => acc
    let r := runAllAux rest acc2
    (r.1, s :: r.2)

/-- `ScraperOrchestrator.run_all` from `src/scrapers/orchestrator.py`:
run every scraper, dedup by URL, filter and rank.  The first component is
the returned result list; the second is the scrapers whose `close()` ran,
in order.  The model is a total function: the per-scraper handler catches
every scraper failure, so no exception escapes the run. -/
def run_all (cfg : ConfidenceScorer) (scrapers : List MScraper) :
    List FilterResult × List MScraper :=
  let r := runAllAux scrapers []
  (cfg.filter_listings (r.1.map Prod.snd), r.2)

/-- `ScraperOrchestrator.get_listing_details`: route to the first scraper
with the requested platform, fetch details, and score the single listing
with `score` (not `filter_listings`); `none` when no scraper matches or
the listing was not found. -/
def get_listing_details (cfg : ConfidenceScorer) (scrapers : List MScraper)
    (url : String) (platform : SourcePlatform) : Except String (Option FilterResult) :=
  match scrapers.find? fun s => s.platform == platform with
  | none => Except.ok none
  | some s =>
    match s.details url with
    | Except.error e => Except.error e
    | Except.ok none => Except.ok none
    | Except.ok (some l) => Except.ok (some (cfg.score l))

/-- Proofs start here.  First the two-branch analysis of `score`. -/
theorem score_of_reject (cfg : ConfidenceScorer) (l : ScrapedListing) (p : String × RE)
    (h : REJECT_PATTERNS.find? (fun q => reSearch q.2 (listingText l)) = some p) :
    cfg.score l =
      { listing := l
        confidence_score := -10
        positive_signals := []
        negative_signals := [(p.1, -10)]
        is_rejected := true
        rejection_reason := some ("Matched rejection pattern: " ++ p.1) } := by
  simp [ConfidenceScorer.score, h]

/-- The four observable fields of `score` when no reject pattern fires. -/
theorem score_of_no_reject (cfg : ConfidenceScorer) (l : ScrapedListing)
    (h : ∀ p ∈ REJECT_PATTERNS, reSearch p.2 (listingText l) = false) :
    (cfg.score l).positive_signals = matchedPositives (listingText l) ∧
    (cfg.score l).confidence_score = sumWeights (matchedPositives (listingText l)) ∧
    (cfg.score l).negative_signals = [] ∧
    (cfg.score l).is_rejected
      = decide (sumWeights (matchedPositives (listingText l)) < cfg.rejection_threshold) ∧
    (cfg.score l).rejection_reason.isSome
      = decide (sumWeights (matchedPositives (listingText l)) < cfg.rejection_threshold) := by
  have hf : REJECT_PATTERNS.find? (fun p => reSearch p.2 (listingText l)) = none :=
    List.find?_eq_none.mpr fun x hx => by simp [h x hx]
  by_cases hc : sumWeights (matchedPositives (listingText l)) < cfg.rejection_threshold <;>
    simp [ConfidenceScorer.score, hf, hc]

theorem foldlAdd_nonneg (l : List (String × ℚ)) :
    ∀ a : ℚ, 0 ≤ a → (∀ x ∈ l, 0 ≤ x.2) → 0 ≤ l.foldl (fun a p => a + p.2) a := by
  induction l with
  | nil => intro a ha _; simpa using ha
  | cons x t ih =>
    intro a ha h
    simp only [List.foldl_cons]
    exact ih _ (add_nonneg ha (h x (by simp))) fun y hy => h y (by simp [hy])

theorem sumWeights_nonneg (sig : List (String × ℚ)) (h : ∀ x ∈ sig, 0 ≤ x.2) :
    0 ≤ sumWeights sig :=
  foldlAdd_nonneg sig 0 le_rfl h

/-- Every shipped positive-pattern weight is nonnegative. -/
theorem positive_weights_nonneg : ∀ p ∈ positivePatterns, (0:ℚ) ≤ p.2.2 := by
  intro p hp
  simp only [positivePatterns, STRONG_POSITIVE, MEDIUM_POSITIVE, WEAK_POSITIVE,
    List.cons_append, List.nil_append, List.mem_cons, List.not_mem_nil, or_false] at hp
  rcases hp with h | h | h | h | h | h | h | h | h | h | h | h | h | h | h | h | h | h | h | h
    | h | h | h | h | h | h | h | h <;> (rw [h]; norm_num)

theorem matchedPositives_nonneg (t : List Char) :
    ∀ x ∈ matchedPositives t, (0:ℚ) ≤ x.2 := by
  intro x hx
  simp only [matchedPositives, List.mem_map, List.mem_filter] at hx
  obtain ⟨p, ⟨hp, -⟩, rfl⟩ := hx
  exact positive_weights_nonneg p hp

/-- The listing of Scenario A in the spec. -/
def scenarioA : ScrapedListing :=
  { title := "Dan Brown Trompe L\x27oeil Painting"
    description := "Beautiful vintage postcard painting by Connecticut artist"
    source_platform := SourcePlatform.EBAY
    source_url := "https://example.com/listing/123" }

/-- A listing matching both a reject pattern and strong positive patterns. -/
def rejectAndPositiveListing : ScrapedListing :=
  { title := "Dan Brown Inferno"
    description := "trompe l\x27oeil painting by the bestselling author"
    source_platform := SourcePlatform.EBAY
    source_url := "https://example.com/listing/124" }

/-- A listing matching exactly the still-life pattern, total weight 1/2. -/
def stillLifeListing : ScrapedListing :=
  { title := "Still Life"
    description := ""
    source_platform := SourcePlatform.EBAY
    source_url := "https://example.com/listing/125" }

/-- A listing matching no reject and no positive pattern. -/
def neutralListing : ScrapedListing :=
  { title := "Blue Bicycle"
    description := "red wheels"
    source_platform := SourcePlatform.EBAY
    source_url := "https://example.com/listing/126" }

/-- Claim C1: when any reject pattern matches the case-folded title plus
description, `score` rejects with the fixed sentinel, an empty positive
map, a single negative signal recording the matching pattern, and a
rejection reason naming it — positive evaluation is skipped. -/
theorem score_reject_precedence (cfg : ConfidenceScorer) (l : ScrapedListing)
    (h : ∃ p ∈ REJECT_PATTERNS, reSearch p.2 (listingText l) = true) :
    (cfg.score l).is_rejected = true ∧
    (cfg.score l).confidence_score = -10 ∧
    (cfg.score l).positive_signals = [] ∧
    ∃ p ∈ REJECT_PATTERNS, reSearch p.2 (listingText l) = true ∧
      (cfg.score l).negative_signals = [(p.1, -10)] ∧
      (cfg.score l).rejection_reason = some ("Matched rejection pattern: " ++ p.1) := by
  have hs : (REJECT_PATTERNS.find? fun p => reSearch p.2 (listingText l)).isSome := by
    rw [List.find?_isSome]
    obtain ⟨p, hp, hm⟩ := h
    exact ⟨p, hp, by simp [hm]⟩
  obtain ⟨q, hq⟩ := Option.isSome_iff_exists.mp hs
  have hmem := List.mem_of_find?_eq_some hq
  have hmatch := List.find?_some hq
  rw [score_of_reject cfg l q hq]
  exact ⟨rfl, rfl, rfl, q, hmem, by simpa using hmatch, rfl, rfl⟩

theorem score_reject_precedence_witness :
    (defaultScorer.score rejectAndPositiveListing).is_rejected = true ∧
    (defaultScorer.score rejectAndPositiveListing).positive_signals = [] :=
  ⟨(score_reject_precedence defaultScorer rejectAndPositiveListing (by decide)).1,
   (score_reject_precedence defaultScorer rejectAndPositiveListing (by decide)).2.2.1⟩

/-- Claim C5: with no reject match, rejection happens exactly when the
summed weight is strictly below the threshold; a sum exactly equal to the
threshold is accepted. -/
theorem score_threshold_exclusive (cfg : ConfidenceScorer) (l : ScrapedListing)
    (h : ∀ p ∈ REJECT_PATTERNS, reSearch p.2 (listingText l) = false) :
    ((cfg.score l).is_rejected = true ↔
      (cfg.score l).confidence_score < cfg.rejection_threshold) ∧
    (sumWeights (matchedPositives (listingText l)) = cfg.rejection_threshold →
      (cfg.score l).is_rejected = false) := by
  obtain ⟨-, hc, -, hr, -⟩ := score_of_no_reject cfg l h
  constructor
  · rw [hr, hc]; simp
  · intro hs; rw [hr, hs]; simp

theorem score_threshold_exclusive_witness :
    ((ConfidenceScorer.mk (1/2) 1).score stillLifeListing).is_rejected = false :=
  (score_threshold_exclusive (ConfidenceScorer.mk (1/2) 1) stillLifeListing (by decide)).2
    (by rw [show matchedPositives (listingText stillLifeListing)
          = [("still\\s*life", 1/2)] from rfl]
        simp [sumWeights])

/-- Claim C8: Scenario A is accepted with score at least 3 and a
trompe-l-oeil positive signal. -/
theorem scenario_a_scoring :
    (defaultScorer.score scenarioA).is_rejected = false ∧
    3 ≤ (defaultScorer.score scenarioA).confidence_score ∧
    "trompe\\s*l[\x27\x27]?oeil" ∈ (defaultScorer.score scenarioA).positive_signals.map Prod.fst := by
  have h : ∀ p ∈ REJECT_PATTERNS, reSearch p.2 (listingText scenarioA) = false := by decide
  obtain ⟨hp, hc, -, hr, -⟩ := score_of_no_reject defaultScorer scenarioA h
  have hm : matchedPositives (listingText scenarioA)
      = [("trompe\\s*l[\x27\x27]?oeil", 3), ("vintage\\s*postcards?", 3/2),
         ("connecticut\\s*artist", 3/2)] := rfl
  have hsum : sumWeights [("trompe\\s*l[\x27\x27]?oeil", (3:ℚ)), ("vintage\\s*postcards?", 3/2),
      ("connecticut\\s*artist", 3/2)] = 6 := by
    simp [sumWeights]
    norm_num
  refine ⟨?_, ?_, ?_⟩
  · rw [hr, hm, hsum]
    simp [defaultScorer]
    norm_num
  · rw [hc, hm, hsum]
    norm_num
  · rw [hp, hm]
    simp

/-- Claim C9: a listing matching no pattern of any kind scores zero and is
accepted under the default thresholds. -/
theorem score_no_match_neutral (l : ScrapedListing)
    (hr : ∀ p ∈ REJECT_PATTERNS, reSearch p.2 (listingText l) = false)
    (hp : ∀ p ∈ positivePatterns, reSearch p.2.1 (listingText l) = false) :
    (defaultScorer.score l).confidence_score = 0 ∧
    (defaultScorer.score l).is_rejected = false := by
  have hm : matchedPositives (listingText l) = [] := by
    have : positivePatterns.filter (fun p => reSearch p.2.1 (listingText l)) = [] :=
      List.filter_eq_nil_iff.mpr fun p hmem => by simp [hp p hmem]
    simp [matchedPositives, this]
  obtain ⟨-, hc, -, hrj, -⟩ := score_of_no_reject defaultScorer l hr
  constructor
  · rw [hc, hm]; rfl
  · rw [hrj, hm]
    apply decide_eq_false
    norm_num [sumWeights, defaultScorer]

theorem score_no_match_neutral_witness :
    (defaultScorer.score neutralListing).confidence_score = 0 ∧
    (defaultScorer.score neutralListing).is_rejected = false :=
  score_no_match_neutral neutralListing (by decide) (by decide)

/-- Claim C10: every scoring result is in one of exactly two shapes —
reject-pattern hit (sentinel score, single negative signal, no positive
signals, reason set) or no hit (no negative signals, score equal to the
sum of the recorded positive weights, hence nonnegative for the shipped
weights, reason set exactly when rejected). -/
theorem score_result_shape (cfg : ConfidenceScorer) (l : ScrapedListing) :
    (∃ p ∈ REJECT_PATTERNS, reSearch p.2 (listingText l) = true ∧
      (cfg.score l).negative_signals = [(p.1, -10)] ∧
      (cfg.score l).positive_signals = [] ∧
      (cfg.score l).confidence_score = -10 ∧
      (cfg.score l).is_rejected = true ∧
      (cfg.score l).rejection_reason.isSome = true) ∨
    ((cfg.score l).negative_signals = [] ∧
      (cfg.score l).confidence_score = sumWeights (cfg.score l).positive_signals ∧
      0 ≤ (cfg.score l).confidence_score ∧
      ((cfg.score l).rejection_reason.isSome = true ↔ (cfg.score l).is_rejected = true)) := by
  cases hf : REJECT_PATTERNS.find? fun p => reSearch p.2 (listingText l) with
  | some q =>
    left
    have hmem := List.mem_of_find?_eq_some hf
    have hmatch := List.find?_some hf
    rw [score_of_reject cfg l q hf]
    exact ⟨q, hmem, by simpa using hmatch, rfl, rfl, rfl, rfl, rfl⟩
  | none =>
    right
    have h : ∀ p ∈ REJECT_PATTERNS, reSearch p.2 (listingText l) = false :=
      fun p hp => by simpa using List.find?_eq_none.mp hf p hp
    obtain ⟨hp, hc, hn, hr, hreason⟩ := score_of_no_reject cfg l h
    refine ⟨hn, by rw [hc, hp], ?_, ?_⟩
    · rw [hc]
      exact sumWeights_nonneg _ (matchedPositives_nonneg _)
    · rw [hreason, hr]

theorem scoreLE_trans (a b c : FilterResult) :
    scoreLE a b → scoreLE b c → scoreLE a c := by
  simp only [scoreLE, decide_eq_true_eq]
  exact fun h1 h2 => le_trans h2 h1

theorem scoreLE_total (a b : FilterResult) : scoreLE a b || scoreLE b a := by
  simp only [scoreLE, Bool.or_eq_true, decide_eq_true_eq]
  exact le_total b.confidence_score a.confidence_score

/-- Claim C2: `filter_listings` returns exactly the accepted scoring
results (a permutation of them), in non-increasing confidence order, and
stably: for every score value, the accepted results carrying that score
appear in the output in their original relative order. -/
theorem filter_listings_sorted_stable (cfg : ConfidenceScorer)
    (listings : List ScrapedListing) :
    (cfg.filter_listings listings).Perm
      ((listings.map cfg.score).filter fun r => !r.is_rejected) ∧
    (∀ r ∈ cfg.filter_listings listings, r.is_rejected = false) ∧
    (cfg.filter_listings listings).Pairwise
      (fun a b => b.confidence_score ≤ a.confidence_score) ∧
    (∀ q : ℚ,
      (cfg.filter_listings listings).filter (fun r => decide (r.confidence_score = q))
        = ((listings.map cfg.score).filter fun r => !r.is_rejected).filter
            (fun r => decide (r.confidence_score = q))) := by
  have hperm : (cfg.filter_listings listings).Perm
      ((listings.map cfg.score).filter fun r => !r.is_rejected) := by
    simpa [ConfidenceScorer.filter_listings] using
      List.mergeSort_perm ((listings.map cfg.score).filter fun r => !r.is_rejected) scoreLE
  refine ⟨hperm, ?_, ?_, ?_⟩
  · intro r hr
    have : r ∈ (listings.map cfg.score).filter fun r => !r.is_rejected :=
      hperm.mem_iff.mp hr
    simpa using (List.mem_filter.mp this).2
  · have hs := @List.sorted_mergeSort _ scoreLE scoreLE_trans
      (fun a b => scoreLE_total a b)
      ((listings.map cfg.score).filter fun r => !r.is_rejected)
    have : (cfg.filter_listings listings).Pairwise fun a b => scoreLE a b := by
      simpa [ConfidenceScorer.filter_listings] using hs
    exact this.imp fun h => by simpa [scoreLE] using h
  · intro q
    set acc := (listings.map cfg.score).filter fun r => !r.is_rejected with hacc
    set pq : FilterResult → Bool := fun r => decide (r.confidence_score = q) with hpq
    have hout : cfg.filter_listings listings = acc.mergeSort scoreLE := by
      simp [ConfidenceScorer.filter_listings, hacc]
    set c := acc.filter pq with hc
    have hcall : ∀ r ∈ c, pq r := fun r hr => (List.mem_filter.mp hr).2
    have hcq : ∀ r ∈ c, r.confidence_score = q := fun r hr => by
      have := hcall r hr
      simpa [hpq] using this
    have hpair : c.Pairwise fun a b => scoreLE a b := by
      apply List.pairwise_of_forall_mem_list
      intro a ha b hb
      simp only [scoreLE, hcq a ha, hcq b hb, decide_eq_true_eq]
      exact le_refl q
    have hsub : List.Sublist c (acc.mergeSort scoreLE) :=
      List.sublist_mergeSort scoreLE_trans (fun a b => scoreLE_total a b) hpair
        (List.filter_sublist acc)
    have hcf : c.filter pq = c := List.filter_eq_self.mpr hcall
    have hsub2 : List.Sublist c ((acc.mergeSort scoreLE).filter pq) := by
      have := hsub.filter pq
      rwa [hcf] at this
    have hlen : c.length = ((acc.mergeSort scoreLE).filter pq).length := by
      have hp2 : ((acc.mergeSort scoreLE).filter pq).Perm (acc.filter pq) :=
        (List.mergeSort_perm acc scoreLE).filter pq
      rw [← hc] at hp2
      exact (hp2.length_eq).symm
    rw [hout]
    exact (hsub2.eq_of_length hlen).symm

theorem boolNotTrue (b : Bool) (h : ¬ b = true) : b = false := by
  cases b
  · rfl
  · exact absurd rfl h

theorem dedupInsert_of_mem (acc : List (String × ScrapedListing)) (l : ScrapedListing)
    (h : acc.any (fun p => p.1 == l.source_url) = true) :
    dedupInsert acc l = acc := by
  simp [dedupInsert, h]

theorem dedupInsert_of_not_mem (acc : List (String × ScrapedListing)) (l : ScrapedListing)
    (h : acc.any (fun p => p.1 == l.source_url) = false) :
    dedupInsert acc l = acc ++ [(l.source_url, l)] := by
  simp [dedupInsert, h]

theorem dedupFold_cons (acc : List (String × ScrapedListing)) (l : ScrapedListing)
    (t : List ScrapedListing) :
    dedupFold acc (l :: t) = dedupFold (dedupInsert acc l) t := by
  simp [dedupFold]

theorem dedupFold_append (acc : List (String × ScrapedListing))
    (ls1 ls2 : List ScrapedListing) :
    dedupFold acc (ls1 ++ ls2) = dedupFold (dedupFold acc ls1) ls2 := by
  simp [dedupFold, List.foldl_append]

theorem url_mem_keys_of_any (acc : List (String × ScrapedListing)) (u : String)
    (h : acc.any (fun p => p.1 == u) = true) : u ∈ acc.map Prod.fst := by
  obtain ⟨p, hp, hbeq⟩ := List.any_eq_true.mp h
  have he : p.1 = u := by simpa using hbeq
  exact List.mem_map.mpr ⟨p, hp, he⟩

theorem url_not_mem_keys_of_not_any (acc : List (String × ScrapedListing)) (u : String)
    (h : acc.any (fun p => p.1 == u) = false) : u ∉ acc.map Prod.fst := by
  intro hmem
  obtain ⟨p, hp, hfst⟩ := List.mem_map.mp hmem
  have h2 : acc.any (fun p => p.1 == u) = true := List.any_eq_true.mpr ⟨p, hp, by simp [hfst]⟩
  rw [h2] at h
  exact Bool.noConfusion h

theorem dedupFold_key_inv (ls : List ScrapedListing) :
    ∀ acc, (∀ p ∈ acc, p.1 = p.2.source_url) →
      ∀ p ∈ dedupFold acc ls, p.1 = p.2.source_url := by
  induction ls with
  | nil => intro acc h; simpa [dedupFold] using h
  | cons l t ih =>
    intro acc h
    rw [dedupFold_cons]
    apply ih
    by_cases hc : acc.any (fun p => p.1 == l.source_url) = true
    · rwa [dedupInsert_of_mem acc l hc]
    · rw [dedupInsert_of_not_mem acc l (boolNotTrue _ hc)]
      intro p hp
      rcases List.mem_append.mp hp with h1 | h2
      · exact h p h1
      · simp only [List.mem_singleton] at h2
        rw [h2]

theorem dedupFold_keys_nodup (ls : List ScrapedListing) :
    ∀ acc, (acc.map Prod.fst).Nodup → ((dedupFold acc ls).map Prod.fst).Nodup := by
  induction ls with
  | nil => intro acc h; simpa [dedupFold] using h
  | cons l t ih =>
    intro acc h
    rw [dedupFold_cons]
    apply ih
    by_cases hc : acc.any (fun p => p.1 == l.source_url) = true
    · rwa [dedupInsert_of_mem acc l hc]
    · rw [dedupInsert_of_not_mem acc l (boolNotTrue _ hc)]
      have hnot := url_not_mem_keys_of_not_any acc l.source_url (boolNotTrue _ hc)
      simp [List.nodup_append, h, hnot]

theorem dedupFold_mem_key (ls : List ScrapedListing) :
    ∀ acc u, u ∈ (dedupFold acc ls).map Prod.fst ↔
      (u ∈ acc.map Prod.fst ∨ u ∈ ls.map fun l => l.source_url) := by
  induction ls with
  | nil => intro acc u; simp [dedupFold]
  | cons l t ih =>
    intro acc u
    rw [dedupFold_cons, ih]
    by_cases hc : acc.any (fun p => p.1 == l.source_url) = true
    · rw [dedupInsert_of_mem acc l hc]
      have hmem := url_mem_keys_of_any acc l.source_url hc
      simp only [List.map_cons, List.mem_cons]
      constructor
      · rintro (h | h)
        · exact Or.inl h
        · exact Or.inr (Or.inr h)
      · rintro (h | h | h)
        · exact Or.inl h
        · subst h; exact Or.inl hmem
        · exact Or.inr h
    · rw [dedupInsert_of_not_mem acc l (boolNotTrue _ hc)]
      simp only [List.map_append, List.map_cons, List.mem_append, List.mem_cons,
        List.map_nil, List.mem_singleton, List.not_mem_nil, or_false]
      tauto

theorem dedupFold_first_wins (ls : List ScrapedListing) :
    ∀ acc k v, (k, v) ∈ dedupFold acc ls →
      (k, v) ∈ acc ∨
      (k ∉ acc.map Prod.fst ∧ k = v.source_url ∧
        ls.find? (fun x => x.source_url == k) = some v) := by
  induction ls with
  | nil =>
    intro acc k v h
    left
    simpa [dedupFold] using h
  | cons l t ih =>
    intro acc k v h
    rw [dedupFold_cons] at h
    rcases ih _ k v h with hin | ⟨hnk, hkv, hfind⟩
    · by_cases hc : acc.any (fun p => p.1 == l.source_url) = true
      · rw [dedupInsert_of_mem acc l hc] at hin
        exact Or.inl hin
      · rw [dedupInsert_of_not_mem acc l (boolNotTrue _ hc)] at hin
        rcases List.mem_append.mp hin with h1 | h2
        · exact Or.inl h1
        · simp only [List.mem_singleton, Prod.mk.injEq] at h2
          obtain ⟨hk, hv⟩ := h2
          right
          refine ⟨?_, ?_, ?_⟩
          · rw [hk]
            exact url_not_mem_keys_of_not_any acc l.source_url (boolNotTrue _ hc)
          · rw [hk, hv]
          · rw [@List.find?_cons_of_pos _ (fun x => x.source_url == k) l t (by simp [hk]), hv]
    · right
      by_cases hc : acc.any (fun p => p.1 == l.source_url) = true
      · rw [dedupInsert_of_mem acc l hc] at hnk
        have hmem := url_mem_keys_of_any acc l.source_url hc
        have hne : ¬ ((l.source_url == k) = true) := by
          simp only [beq_iff_eq]
          intro he
          exact hnk (he ▸ hmem)
        refine ⟨hnk, hkv, ?_⟩
        rw [@List.find?_cons_of_neg _ (fun x => x.source_url == k) l t hne]
        exact hfind
      · rw [dedupInsert_of_not_mem acc l (boolNotTrue _ hc)] at hnk
        simp only [List.map_append, List.mem_append, List.map_cons, List.map_nil,
          List.mem_singleton, not_or] at hnk
        obtain ⟨hnk1, hnk2⟩ := hnk
        refine ⟨hnk1, hkv, ?_⟩
        have hne : ¬ ((l.source_url == k) = true) := by
          simp only [beq_iff_eq]
          intro he
          exact hnk2 he.symm
        rw [@List.find?_cons_of_neg _ (fun x => x.source_url == k) l t hne]
        exact hfind

theorem dedupByUrl_urls_nodup (ls : List ScrapedListing) :
    ((dedupByUrl ls).map fun l => l.source_url).Nodup := by
  have hkeys := dedupFold_keys_nodup ls [] (by simp)
  have hinv := dedupFold_key_inv ls [] (by simp)
  have hmap : (dedupByUrl ls).map (fun l => l.source_url)
      = (dedupFold [] ls).map Prod.fst := by
    simp only [dedupByUrl, List.map_map]
    exact List.map_congr_left fun p hp => (hinv p hp).symm
  rw [hmap]
  exact hkeys

theorem dedupByUrl_first_wins (ls : List ScrapedListing) :
    ∀ l ∈ dedupByUrl ls,
      ls.find? (fun x => x.source_url == l.source_url) = some l := by
  intro l hl
  obtain ⟨p, hp, hsnd⟩ := List.mem_map.mp hl
  rcases dedupFold_first_wins ls [] p.1 p.2 (by simpa using hp) with h0 | ⟨-, hk, hf⟩
  · simp at h0
  · rw [← hsnd, ← hk]
    exact hf

theorem dedupByUrl_complete (ls : List ScrapedListing) :
    ∀ x ∈ ls, ∃ l ∈ dedupByUrl ls, l.source_url = x.source_url := by
  intro x hx
  have hu : x.source_url ∈ (dedupFold [] ls).map Prod.fst := by
    rw [dedupFold_mem_key ls [] x.source_url]
    exact Or.inr (List.mem_map.mpr ⟨x, hx, rfl⟩)
  obtain ⟨p, hp, hfst⟩ := List.mem_map.mp hu
  refine ⟨p.2, List.mem_map.mpr ⟨p, hp, rfl⟩, ?_⟩
  rw [← dedupFold_key_inv ls [] (by simp) p hp, hfst]

theorem runAllAux_spec (scrapers : List MScraper) :
    ∀ acc, runAllAux scrapers acc = (dedupFold acc (collected scrapers), scrapers) := by
  induction scrapers with
  | nil => intro acc; simp [runAllAux, collected, dedupFold]
  | cons s rest ih =>
    intro acc
    cases hsa : s.search_all with
    | ok ls => simp [runAllAux, hsa, ih, collected, okListings, dedupFold_append]
    | error e => simp [runAllAux, hsa, ih, collected, okListings, dedupFold_append]

theorem run_all_spec (cfg : ConfidenceScorer) (scrapers : List MScraper) :
    run_all cfg scrapers
      = (cfg.filter_listings (dedupByUrl (collected scrapers)), scrapers) := by
  simp [run_all, runAllAux_spec, dedupByUrl]

theorem collected_filter_ok (scrapers : List MScraper) :
    collected scrapers
      = collected (scrapers.filter fun s => match s.search_all with
          | Except.ok _ => true
          | Except.error _ => false) := by
  induction scrapers with
  | nil => rfl
  | cons s rest ih =>
    simp only [collected] at ih
    cases hsa : s.search_all with
    | ok ls =>
      have hpred : (match s.search_all with
          | Except.ok (_ : List ScrapedListing) => true
          | Except.error _ => false) = true := by rw [hsa]
      simp only [collected, List.filter_cons, hpred, if_true, List.map_cons, List.flatten_cons]
      rw [ih]
    | error e =>
      have hpred : (match s.search_all with
          | Except.ok (_ : List ScrapedListing) => true
          | Except.error _ => false) = false := by rw [hsa]
      have hok : okListings s = [] := by simp [okListings, hsa]
      simp only [collected, List.filter_cons, hpred, List.map_cons, List.flatten_cons,
        hok, List.nil_append, Bool.false_eq_true, if_false]
      exact ih

/-- Claim C3: `run_all` always completes with a value; every scraper,
including each one whose `search_all` raised, is closed exactly once (the
close log equals the scraper list); and the returned ranking is the
filtered, deduplicated merge of exactly the listings of the
non-failing scrapers. -/
theorem run_all_failure_isolation (cfg : ConfidenceScorer) (scrapers : List MScraper) :
    (run_all cfg scrapers).2 = scrapers ∧
    (run_all cfg scrapers).1 = cfg.filter_listings (dedupByUrl (collected scrapers)) ∧
    collected scrapers
      = collected (scrapers.filter fun s => match s.search_all with
          | Except.ok _ => true
          | Except.error _ => false) := by
  rw [run_all_spec]
  exact ⟨rfl, rfl, collected_filter_ok scrapers⟩

/-- Claim C6: the merged collection `run_all` hands to `filter_listings`
holds exactly one listing per distinct `source_url`, namely the first
listing with that URL in configured scraper order, and the URL of every
collected listing is represented. -/
theorem run_all_dedup_first_seen (cfg : ConfidenceScorer) (scrapers : List MScraper) :
    (run_all cfg scrapers).1 = cfg.filter_listings (dedupByUrl (collected scrapers)) ∧
    ((dedupByUrl (collected scrapers)).map fun l => l.source_url).Nodup ∧
    (∀ l ∈ dedupByUrl (collected scrapers),
      (collected scrapers).find? (fun x => x.source_url == l.source_url) = some l) ∧
    (∀ x ∈ collected scrapers,
      ∃ l ∈ dedupByUrl (collected scrapers), l.source_url = x.source_url) := by
  refine ⟨?_, dedupByUrl_urls_nodup _, dedupByUrl_first_wins _, dedupByUrl_complete _⟩
  rw [run_all_spec]

/-- Claim C7: with a configured scraper for the platform whose detail
fetch returns a listing, `get_listing_details` returns `score` of that
listing unconditionally — also when the scored result is rejected. -/
theorem get_listing_details_single_scoring (cfg : ConfidenceScorer)
    (scrapers : List MScraper) (url : String) (platform : SourcePlatform)
    (s : MScraper) (l : ScrapedListing)
    (hfind : scrapers.find? (fun x => x.platform == platform) = some s)
    (hdet : s.details url = Except.ok (some l)) :
    get_listing_details cfg scrapers url platform = Except.ok (some (cfg.score l)) := by
  simp [get_listing_details, hfind, hdet]

/-- A scraper stand-in whose detail fetch yields a listing that scores as
rejected. -/
def detailScraper : MScraper :=
  { platform := SourcePlatform.EBAY
    search_all := Except.ok []
    details := fun _ => Except.ok (some rejectAndPositiveListing) }

theorem get_listing_details_single_scoring_witness :
    get_listing_details defaultScorer [detailScraper] "https://example.com/listing/124"
        SourcePlatform.EBAY
      = Except.ok (some (defaultScorer.score rejectAndPositiveListing)) ∧
    (defaultScorer.score rejectAndPositiveListing).is_rejected = true :=
  ⟨get_listing_details_single_scoring defaultScorer [detailScraper]
      "https://example.com/listing/124" SourcePlatform.EBAY detailScraper
      rejectAndPositiveListing rfl rfl,
   by decide⟩

theorem foldl_dedup_queries (search : String → List ScrapedListing) (qs : List String) :
    ∀ acc, qs.foldl (fun acc q => dedupFold acc (search q)) acc
      = dedupFold acc ((qs.map search).flatten) := by
  induction qs with
  | nil => intro acc; simp [dedupFold]
  | cons q t ih => intro acc; simp [ih, dedupFold_append]

theorem foldl_api_queries (search : String → List ScrapedListing) (qs : List String) :
    ∀ acc, qs.foldl (fun acc q => (search q).foldl apiInsert acc) acc
      = ((qs.map search).flatten).foldl apiInsert acc := by
  induction qs with
  | nil => intro acc; simp
  | cons q t ih => intro acc; simp [ih, List.foldl_append]

/-- Claim C4 (amended): both shipped `search_all` implementations compose
`build_search_queries` through `search` sequentially and merge into one
list; `EbayScraper.search_all` deduplicates by `source_url` only (first
seen wins, one listing per distinct URL), and `EbayApiScraper.search_all`
folds its id-or-url-keyed dict over the concatenated query results. -/
theorem search_all_amended (search : String → List ScrapedListing) :
    ebaySearchAll search = dedupByUrl ((ebayBuildSearchQueries.map search).flatten) ∧
    ((ebaySearchAll search).map fun l => l.source_url).Nodup ∧
    (∀ l ∈ ebaySearchAll search,
      ((ebayBuildSearchQueries.map search).flatten).find?
        (fun x => x.source_url == l.source_url) = some l) ∧
    ebayApiSearchAll search
      = (((ebayApiBuildSearchQueries.map search).flatten).foldl apiInsert []).map Prod.snd := by
  have h1 : ebaySearchAll search = dedupByUrl ((ebayBuildSearchQueries.map search).flatten) := by
    simp [ebaySearchAll, dedupByUrl, foldl_dedup_queries]
  refine ⟨h1, ?_, ?_, ?_⟩
  · rw [h1]
    exact dedupByUrl_urls_nodup _
  · rw [h1]
    exact dedupByUrl_first_wins _
  · simp [ebayApiSearchAll, foldl_api_queries]

/-- Two listings sharing a `source_id` but not a `source_url`. -/
def c4Listing1 : ScrapedListing :=
  { title := "Dan Brown rack painting lot A"
    description := ""
    source_platform := SourcePlatform.EBAY
    source_url := "https://www.ebay.com/itm/1"
    source_id := some "123" }

def c4Listing2 : ScrapedListing :=
  { title := "Dan Brown rack painting lot B"
    description := ""
    source_platform := SourcePlatform.EBAY
    source_url := "https://www.ebay.com/itm/2"
    source_id := some "123" }

/-- A `search` outcome: the first eBay query returns the two listings
above, every other query returns nothing. -/
def c4Search : String → List ScrapedListing :=
  fun q => if q == "\x22Dan Brown\x22 trompe l\x27oeil" then [c4Listing1, c4Listing2] else []

/-- Claim C4 counterexample: `EbayScraper.search_all` keeps both listings
that share a `source_id`, so it does not deduplicate by `source_id` when
present as the claim states (the spec-worded dedup would keep one). -/
theorem ebay_search_all_counterexample :
    c4Listing1.source_id = some "123" ∧
    c4Listing2.source_id = some "123" ∧
    c4Listing1.source_url ≠ c4Listing2.source_url ∧
    ebaySearchAll c4Search = [c4Listing1, c4Listing2] ∧
    specSearchAll c4Search ebayBuildSearchQueries = [c4Listing1] ∧
    ebaySearchAll c4Search ≠ specSearchAll c4Search ebayBuildSearchQueries := by
  refine ⟨rfl, rfl, by decide, rfl, rfl, by decide⟩
